import Mathlib

/-!
Verification of the trait-score aggregation and template-population pipeline
of the `shortedpassistant` repository.

The Python sources `src/trait_scores.py`, `src/ppt_builder.py` and
`src/app.py` are shallowly embedded below.  Python numbers (ints and
floats) are modelled as exact rationals `ℚ` (every quantity this pipeline
computes — ratings 1..5, means of three ratings, the fixed EMU geometry
constants and their scalings — is produced exactly, or rounded identically,
by CPython's binary floats, so the rational model is faithful on the
reachable inputs); Python's `int(x)` cast is truncation toward zero; `dict`
is modelled as an insertion-ordered association list whose lookup returns
the value of the last matching key; Python exceptions (`ValueError`,
`KeyError`, `IndexError`) are modelled with the explicit result type
`PyRes`.  `str.strip()` and `str.lower()` are modelled character-wise
(ASCII case mapping, which agrees with Python on the label vocabulary).
-/

/-- Result of a Python call: a value, or an uncaught exception's message. -/
inductive PyRes (α : Type) where
  | ok (a : α)
  | err (msg : String)
  deriving DecidableEq, Repr

/-- A Python value appearing as a rating: a number (int or float, modelled
exactly as a rational) or a string. -/
inductive PyVal where
  | pnum (q : ℚ)
  | pstr (s : String)
  deriving DecidableEq, Repr

/-- Python's `int(x)` on a number: truncation toward zero
(floor for nonnegative values, ceiling for negative ones). -/
def pyTrunc (q : ℚ) : ℤ := if 0 ≤ q then ⌊q⌋ else ⌈q⌉

/-- Python's `round(x)` to the nearest integer, ties to even
(banker's rounding), acting on an exact rational. -/
def roundHalfEven (q : ℚ) : ℤ :=
  let f := ⌊q⌋
  let r := q - (f : ℚ)
  if r < 1/2 then f
  else if 1/2 < r then f + 1
  else if f % 2 = 0 then f else f + 1

/-- `round(x, 2)` as used in `trait_scores.py`, on an exact rational.
For every value this pipeline rounds — means of three integer ratings in
1..5 — the exact-rational result coincides with CPython's float `round`. -/
def pyRound2 (q : ℚ) : ℚ := (roundHalfEven (q * 100) : ℚ) / 100

/-- `statistics.mean` on a list of ints, as an exact rational. -/
def pyMean (l : List ℤ) : ℚ := ((l.sum : ℚ)) / (l.length : ℚ)

/-- ASCII lower-casing of one character, as `str.lower()` does on the
ASCII range. -/
def lowerChar (c : Char) : Char :=
  if 'A' ≤ c ∧ c ≤ 'Z' then Char.ofNat (c.toNat + 32) else c

/-- `str.lower()` (ASCII fragment). -/
def pyLower (s : String) : String := ⟨s.data.map lowerChar⟩

/-- The whitespace characters removed by `str.strip()`. -/
def isPySpace (c : Char) : Bool :=
  c == ' ' || c == '\t' || c == '\n' || c == '\r' || c == '\x0b' || c == '\x0c'

/-- `str.strip()`: drop whitespace from both ends. -/
def pyStrip (s : String) : String :=
  ⟨((s.data.dropWhile isPySpace).reverse.dropWhile isPySpace).reverse⟩

/-- Lookup in a Python dict represented as an insertion-ordered
association list: the *last* binding of a key wins. -/
def dictGet? {α : Type} (l : List (String × α)) (k : String) : Option α :=
  l.foldl (fun acc p => if p.1 == k then some p.2 else acc) none

/-- Python's `dict.get(k, d)`. -/
def dictGetD {α : Type} (l : List (String × α)) (k : String) (d : α) : α :=
  (dictGet? l k).getD d

/-- `_SCALE_MAP` from `src/trait_scores.py`. -/
def SCALE_MAP : List (String × ℤ) :=
  [("below", 1), ("developing", 2), ("hits", 3), ("good", 4), ("strong", 5)]

/-- `_to_numeric` from `src/trait_scores.py`:
numbers are cast with `int(...)` and accepted when the cast lands in 1..5;
strings are stripped, lowercased and looked up in `_SCALE_MAP`;
everything else raises `ValueError`. -/
def to_numeric : PyVal → PyRes ℤ
  | .pnum q =>
    let iv := pyTrunc q
    if 1 ≤ iv ∧ iv ≤ 5 then .ok iv
    else .err "ValueError: Unsupported rating value"
  | .pstr s =>
    match dictGet? SCALE_MAP (pyLower (pyStrip s)) with
    | some n => .ok n
    | none => .err "ValueError: Unsupported rating value"

/-- `_GROUP_MAP` from `src/trait_scores.py`. -/
def GROUP_MAP : List (String × List String) :=
  [ ("purpose energy", ["mission", "drive", "agency"]),
    ("intellectual energy", ["judgment", "incisiveness", "curiosity"]),
    ("emotional energy", ["positivity", "resilience", "growth mindset"]),
    ("people energy", ["compelling impact", "connection", "environmental insight"]),
    ("performance impact",
      ["achieves sustainable impact", "creates focus", "orchestrates delivery"]),
    ("strategic framing",
      ["frames complexity", "identifies new possibilities", "generates solutions"]),
    ("mobilisation", ["inspires people", "drives culture", "grows self and others"]),
    ("powerful relationships",
      ["aligns stakeholders", "models collaboration", "builds teams"]) ]

/-- `_RADAR1_TRAITS` from `src/trait_scores.py` (11 traits). -/
def RADAR1_TRAITS : List String :=
  [ "mission", "drive", "agency",
    "incisiveness", "curiosity",
    "positivity", "resilience", "growth mindset",
    "compelling impact", "connection", "environmental insight" ]

/-- `_RADAR2_TRAITS` from `src/trait_scores.py` (12 traits). -/
def RADAR2_TRAITS : List String :=
  [ "achieves sustainable impact", "creates focus", "orchestrates delivery",
    "frames complexity", "identifies new possibilities", "generates solutions",
    "inspires people", "drives culture", "grows self and others",
    "aligns stakeholders", "models collaboration", "builds teams" ]

/-- `TRAIT_24` from `src/app.py`: the 24 fixed trait names. -/
def TRAIT_24 : List String :=
  [ "mission", "drive", "agency",
    "judgment", "incisiveness", "curiosity",
    "positivity", "resilience", "growth mindset",
    "compelling impact", "connection", "environmental insight",
    "achieves sustainable impact", "creates focus", "orchestrates delivery",
    "frames complexity", "identifies new possibilities", "generates solutions",
    "inspires people", "drives culture", "grows self and others",
    "aligns stakeholders", "models collaboration", "builds teams" ]

/-- The dict comprehension `{k.lower(): _to_numeric(v) for k, v in
detailed_ratings.items()}` shared by `aggregate_eight_scores` and
`split_radar_groups`: builds the normalised dict left to right, raising
at the first invalid value. -/
def normMap : List (String × PyVal) → PyRes (List (String × ℤ))
  | [] => .ok []
  | (k, v) :: rest =>
    match to_numeric v with
    | .err e => .err e
    | .ok n =>
      match normMap rest with
      | .err e => .err e
      | .ok l => .ok ((pyLower k, n) :: l)

/-- The list comprehension `[norm[t] for t in traits]` inside
`aggregate_eight_scores`: looks traits up left to right; the first absent
trait raises `KeyError`, converted by the caller to
`ValueError("Missing rating for trait: ...")`. -/
def lookupTraits (norm : List (String × ℤ)) : List String → PyRes (List ℤ)
  | [] => .ok []
  | t :: ts =>
    match dictGet? norm t with
    | none => .err ("Missing rating for trait: " ++ t)
    | some v =>
      match lookupTraits norm ts with
      | .err e => .err e
      | .ok vs => .ok (v :: vs)

/-- The `for group, traits in _GROUP_MAP.items()` loop of
`aggregate_eight_scores`: one rounded mean per group, aborting the whole
call at the first group with an absent trait (no partial dict survives
an error, since the raised exception discards `scores`). -/
def aggGroups (norm : List (String × ℤ)) :
    List (String × List String) → PyRes (List (String × ℚ))
  | [] => .ok []
  | (g, ts) :: rest =>
    match lookupTraits norm ts with
    | .err e => .err e
    | .ok vs =>
      match aggGroups norm rest with
      | .err e => .err e
      | .ok scores => .ok ((g, pyRound2 (pyMean vs)) :: scores)

/-- `aggregate_eight_scores` from `src/trait_scores.py`. -/
def aggregate_eight_scores (detailed_ratings : List (String × PyVal)) :
    PyRes (List (String × ℚ)) :=
  match normMap detailed_ratings with
  | .err e => .err e
  | .ok norm => aggGroups norm GROUP_MAP

/-- The dict comprehension `{trait: norm[trait] for trait in traits}` of
`split_radar_groups`; an absent trait raises an uncaught `KeyError`. -/
def buildRadar (norm : List (String × ℤ)) : List String → PyRes (List (String × ℤ))
  | [] => .ok []
  | t :: ts =>
    match dictGet? norm t with
    | none => .err ("KeyError: " ++ t)
    | some v =>
      match buildRadar norm ts with
      | .err e => .err e
      | .ok l => .ok ((t, v) :: l)

/-- `split_radar_groups` from `src/trait_scores.py`. -/
def split_radar_groups (detailed_ratings : List (String × PyVal)) :
    PyRes (List (String × ℤ) × List (String × ℤ)) :=
  match normMap detailed_ratings with
  | .err e => .err e
  | .ok norm =>
    match buildRadar norm RADAR1_TRAITS with
    | .err e => .err e
    | .ok r1 =>
      match buildRadar norm RADAR2_TRAITS with
      | .err e => .err e
      | .ok r2 => .ok (r1, r2)

/-- A complete rating set keyed by the canonical (lower-case) trait
names, with integer value `vals t` for trait `t`. -/
def canonRatings (vals : String → ℤ) : List (String × PyVal) :=
  TRAIT_24.map (fun t => (t, PyVal.pnum (vals t)))

/-! ### Ground-evaluation helpers -/

theorem pyTrunc_eq {q : ℚ} {n : ℤ} (hq : 0 ≤ q) (h1 : (n : ℚ) ≤ q)
    (h2 : q < n + 1) : pyTrunc q = n := by
  rw [pyTrunc, if_pos hq, Int.floor_eq_iff]
  exact ⟨h1, h2⟩

theorem pyTrunc_intCast (v : ℤ) : pyTrunc (v : ℚ) = v := by
  rw [pyTrunc]
  split
  · exact Int.floor_intCast v
  · exact Int.ceil_intCast v

theorem to_numeric_pnum_ok {q : ℚ} {n : ℤ} (h : pyTrunc q = n) (h1 : 1 ≤ n)
    (h5 : n ≤ 5) : to_numeric (.pnum q) = .ok n := by
  simp [to_numeric, h, h1, h5]

theorem to_numeric_pnum_err {q : ℚ}
    (h : ¬ (1 ≤ pyTrunc q ∧ pyTrunc q ≤ 5)) :
    to_numeric (.pnum q) = .err "ValueError: Unsupported rating value" := by
  simp only [to_numeric]
  rw [if_neg h]

theorem to_numeric_int {v : ℤ} (h1 : 1 ≤ v) (h5 : v ≤ 5) :
    to_numeric (.pnum (v : ℚ)) = .ok v :=
  to_numeric_pnum_ok (pyTrunc_intCast v) h1 h5

theorem roundHalfEven_of_lt {q : ℚ} {f : ℤ} (hf : ⌊q⌋ = f)
    (hr : q - (f : ℚ) < 1/2) : roundHalfEven q = f := by
  simp only [roundHalfEven, hf]
  rw [if_pos hr]

theorem roundHalfEven_of_gt {q : ℚ} {f : ℤ} (hf : ⌊q⌋ = f)
    (hr : 1/2 < q - (f : ℚ)) : roundHalfEven q = f + 1 := by
  simp only [roundHalfEven, hf]
  rw [if_neg (by linarith), if_pos hr]

theorem pyRound2_intCast (v : ℤ) : pyRound2 (v : ℚ) = v := by
  have h : ((v : ℚ)) * 100 = ((v * 100 : ℤ) : ℚ) := by push_cast; ring
  rw [pyRound2, roundHalfEven_of_lt (f := v * 100) (by rw [h, Int.floor_intCast])
    (by rw [h]; norm_num)]
  push_cast
  field_simp

example : to_numeric (.pnum 3) = .ok 3 := to_numeric_int (by norm_num) (by norm_num)
example : to_numeric (.pnum (5/2)) = .ok 2 :=
  to_numeric_pnum_ok (pyTrunc_eq (by norm_num) (by norm_num) (by norm_num))
    (by norm_num) (by norm_num)
example : to_numeric (.pnum (59/10)) = .ok 5 :=
  to_numeric_pnum_ok (pyTrunc_eq (by norm_num) (by norm_num) (by norm_num))
    (by norm_num) (by norm_num)
example : to_numeric (.pstr " Below ") = .ok 1 := by decide
example : to_numeric (.pstr "STRONG") = .ok 5 := by decide
example : to_numeric (.pstr "") = .err "ValueError: Unsupported rating value" := by decide
example : pyRound2 (5/3) = 167/100 := by
  rw [pyRound2, roundHalfEven_of_gt (f := 166) (by rw [Int.floor_eq_iff]; norm_num)
    (by norm_num)]
  norm_num

/-! ### Association-list (Python dict) lemmas -/

theorem dictFold_mem {α : Type} {k : String} {v : α} :
    ∀ (l : List (String × α)) (acc : Option α),
      l.foldl (fun acc p => if p.1 == k then some p.2 else acc) acc = some v →
      (k, v) ∈ l ∨ acc = some v := by
  intro l
  induction l with
  | nil => intro acc h; exact Or.inr h
  | cons p l ih =>
    intro acc h
    simp only [List.foldl] at h
    rcases ih _ h with hmem | hacc
    · exact Or.inl (List.mem_cons_of_mem _ hmem)
    · by_cases hpk : (p.1 == k) = true
      · rw [if_pos hpk] at hacc
        obtain ⟨p1, p2⟩ := p
        simp only [beq_iff_eq] at hpk
        injection hacc with hv
        subst hpk; subst hv
        exact Or.inl (List.mem_cons_self _ _)
      · rw [if_neg hpk] at hacc
        exact Or.inr hacc

theorem dictGet?_mem {α : Type} {l : List (String × α)} {k : String} {v : α}
    (h : dictGet? l k = some v) : (k, v) ∈ l := by
  rcases dictFold_mem l none h with hm | hn
  · exact hm
  · cases hn

/-- The canonical normalised dict: each trait of `ts` bound to `vals t`. -/
def mkNorm (ts : List String) (vals : String → ℤ) : List (String × ℤ) :=
  ts.map fun t => (t, vals t)

theorem dictFold_mkNorm {vals : String → ℤ} {k : String} :
    ∀ (ts : List String) (acc : Option ℤ),
      (ts.map fun t => (t, vals t)).foldl
          (fun acc p => if p.1 == k then some p.2 else acc) acc
        = if k ∈ ts then some (vals k) else acc := by
  intro ts
  induction ts with
  | nil => intro acc; simp
  | cons t ts ih =>
    intro acc
    simp only [List.map, List.foldl]
    rw [ih]
    by_cases h : t = k
    · subst h
      simp
    · have hb : (t == k) = false := by simp [h]
      have h2 : ¬ k = t := fun he => h he.symm
      simp [hb, List.mem_cons, h2]

theorem dictGet?_mkNorm (ts : List String) (vals : String → ℤ) (k : String) :
    dictGet? (mkNorm ts vals) k = if k ∈ ts then some (vals k) else none := by
  rw [mkNorm, dictGet?, dictFold_mkNorm]

/-! ### Normalisation lemmas -/

theorem normMap_map_pnum (ts : List String) (vals : String → ℤ)
    (h : ∀ t ∈ ts, 1 ≤ vals t ∧ vals t ≤ 5) :
    normMap (ts.map fun t => (t, PyVal.pnum (vals t)))
      = .ok (ts.map fun t => (pyLower t, vals t)) := by
  induction ts with
  | nil => rfl
  | cons t ts ih =>
    have hv := h t (List.mem_cons_self t ts)
    have hts : ∀ s ∈ ts, 1 ≤ vals s ∧ vals s ≤ 5 :=
      fun s hs => h s (List.mem_cons_of_mem _ hs)
    simp only [List.map, normMap, to_numeric_int hv.1 hv.2, ih hts]

/-- On every canonical trait name, lower-casing is the identity. -/
theorem pyLower_trait24 : ∀ t ∈ TRAIT_24, pyLower t = t := by decide

theorem normMap_canon (vals : String → ℤ)
    (h : ∀ t ∈ TRAIT_24, 1 ≤ vals t ∧ vals t ≤ 5) :
    normMap (canonRatings vals) = .ok (mkNorm TRAIT_24 vals) := by
  have hmaps : TRAIT_24.map (fun t => (pyLower t, vals t))
      = TRAIT_24.map (fun t => (t, vals t)) :=
    List.map_congr_left fun t ht => by rw [pyLower_trait24 t ht]
  rw [canonRatings, normMap_map_pnum _ _ h, mkNorm, hmaps]

/-! ### First-missing-trait machinery -/

/-- The first trait of a group's trait list that is absent from `ts`. -/
def firstMissingIn (ts : List String) : List String → Option String
  | [] => none
  | x :: xs => if x ∈ ts then firstMissingIn ts xs else some x

/-- The first absent trait over the whole group table, in
group-definition traversal order. -/
def firstMissingG (ts : List String) : List (String × List String) → Option String
  | [] => none
  | g :: gs =>
    match firstMissingIn ts g.2 with
    | some m => some m
    | none => firstMissingG ts gs

theorem lookupTraits_mkNorm_ok (ts : List String) (vals : String → ℤ)
    (traits : List String) (h : firstMissingIn ts traits = none) :
    lookupTraits (mkNorm ts vals) traits = .ok (traits.map vals) := by
  induction traits with
  | nil => rfl
  | cons x xs ih =>
    by_cases hx : x ∈ ts
    · rw [firstMissingIn, if_pos hx] at h
      simp only [lookupTraits, dictGet?_mkNorm, if_pos hx, ih h, List.map]
    · rw [firstMissingIn, if_neg hx] at h
      cases h

theorem lookupTraits_mkNorm_err (ts : List String) (vals : String → ℤ)
    (traits : List String) (m : String) (h : firstMissingIn ts traits = some m) :
    lookupTraits (mkNorm ts vals) traits
      = .err ("Missing rating for trait: " ++ m) := by
  induction traits with
  | nil => cases h
  | cons x xs ih =>
    by_cases hx : x ∈ ts
    · rw [firstMissingIn, if_pos hx] at h
      simp only [lookupTraits, dictGet?_mkNorm, if_pos hx, ih h]
    · rw [firstMissingIn, if_neg hx] at h
      injection h with hm
      subst hm
      simp only [lookupTraits, dictGet?_mkNorm, if_neg hx]

theorem aggGroups_mkNorm_ok (ts : List String) (vals : String → ℤ)
    (groups : List (String × List String)) (h : firstMissingG ts groups = none) :
    aggGroups (mkNorm ts vals) groups
      = .ok (groups.map fun g => (g.1, pyRound2 (pyMean (g.2.map vals)))) := by
  induction groups with
  | nil => rfl
  | cons g gs ih =>
    obtain ⟨gname, gtraits⟩ := g
    rw [firstMissingG] at h
    cases hin : firstMissingIn ts gtraits with
    | some m => rw [hin] at h; cases h
    | none =>
      rw [hin] at h
      simp only [aggGroups, lookupTraits_mkNorm_ok ts vals gtraits hin, ih h, List.map]

theorem aggGroups_mkNorm_err (ts : List String) (vals : String → ℤ)
    (groups : List (String × List String)) (m : String)
    (h : firstMissingG ts groups = some m) :
    aggGroups (mkNorm ts vals) groups
      = .err ("Missing rating for trait: " ++ m) := by
  induction groups with
  | nil => cases h
  | cons g gs ih =>
    obtain ⟨gname, gtraits⟩ := g
    rw [firstMissingG] at h
    cases hin : firstMissingIn ts gtraits with
    | some x =>
      rw [hin] at h
      injection h with hx
      subst hx
      simp only [aggGroups, lookupTraits_mkNorm_err ts vals gtraits x hin]
    | none =>
      rw [hin] at h
      simp only [aggGroups, lookupTraits_mkNorm_ok ts vals gtraits hin, ih h]

theorem buildRadar_mkNorm (ts : List String) (vals : String → ℤ)
    (l : List String) (h : ∀ x ∈ l, x ∈ ts) :
    buildRadar (mkNorm ts vals) l = .ok (l.map fun t => (t, vals t)) := by
  induction l with
  | nil => rfl
  | cons x xs ih =>
    have hx := h x (List.mem_cons_self x xs)
    have hxs : ∀ y ∈ xs, y ∈ ts := fun y hy => h y (List.mem_cons_of_mem _ hy)
    simp only [buildRadar, dictGet?_mkNorm, if_pos hx, ih hxs, List.map]

theorem dictGet_scale {k : String} {n : ℤ} (h : (k, n) ∈ SCALE_MAP) :
    dictGet? SCALE_MAP k = some n := by
  fin_cases h <;> rfl

/-- C1 counterexample: the claim asserts that `_to_numeric` fails on the
non-integer floats 2.5 and 5.9; in fact `int(val)` silently truncates
them and both are accepted (2.5 ↦ 2 and 5.9 ↦ 5). -/
theorem to_numeric_accepts_nonexact_floats :
    to_numeric (.pnum (5/2)) = .ok 2 ∧ to_numeric (.pnum (59/10)) = .ok 5 :=
  ⟨to_numeric_pnum_ok (pyTrunc_eq (by norm_num) (by norm_num) (by norm_num))
      (by norm_num) (by norm_num),
   to_numeric_pnum_ok (pyTrunc_eq (by norm_num) (by norm_num) (by norm_num))
      (by norm_num) (by norm_num)⟩

/-- C1 (amended): `_to_numeric` returns an integer in 1..5 exactly when its
input is a number whose truncation toward zero lands in 1..5 — so integers
1..5 are accepted, but non-exact floats such as 2.5 and 5.9 are silently
truncated rather than rejected — or, after stripping surrounding whitespace
and lower-casing, one of the five ordered labels Below↦1, Developing↦2,
Hits↦3, Good↦4, Strong↦5; every other input (0, 6, the empty string,
unrecognized strings) raises `ValueError`. -/
theorem to_numeric_spec :
    (∀ q : ℚ, 1 ≤ pyTrunc q ∧ pyTrunc q ≤ 5 →
      to_numeric (.pnum q) = .ok (pyTrunc q))
  ∧ (∀ q : ℚ, ¬ (1 ≤ pyTrunc q ∧ pyTrunc q ≤ 5) →
      to_numeric (.pnum q) = .err "ValueError: Unsupported rating value")
  ∧ (∀ s : String, ∀ n : ℤ, (pyLower (pyStrip s), n) ∈ SCALE_MAP →
      to_numeric (.pstr s) = .ok n)
  ∧ (∀ s : String, (∀ n : ℤ, (pyLower (pyStrip s), n) ∉ SCALE_MAP) →
      to_numeric (.pstr s) = .err "ValueError: Unsupported rating value")
  ∧ to_numeric (.pstr "Below") = .ok 1
  ∧ to_numeric (.pstr " developing ") = .ok 2
  ∧ to_numeric (.pstr "HITS") = .ok 3
  ∧ to_numeric (.pstr "Good") = .ok 4
  ∧ to_numeric (.pstr "Strong") = .ok 5
  ∧ to_numeric (.pnum 0) = .err "ValueError: Unsupported rating value"
  ∧ to_numeric (.pnum 6) = .err "ValueError: Unsupported rating value"
  ∧ to_numeric (.pstr "") = .err "ValueError: Unsupported rating value"
  ∧ to_numeric (.pstr "excellent") = .err "ValueError: Unsupported rating value" := by
  have h0 : pyTrunc (0 : ℚ) = 0 := by
    rw [show ((0:ℚ)) = ((0:ℤ) : ℚ) by norm_num, pyTrunc_intCast]
  have h6 : pyTrunc (6 : ℚ) = 6 := by
    rw [show ((6:ℚ)) = ((6:ℤ) : ℚ) by norm_num, pyTrunc_intCast]
  refine ⟨?_, ?_, ?_, ?_, by decide, by decide, by decide, by decide, by decide,
    ?_, ?_, by decide, by decide⟩
  · intro q h
    exact to_numeric_pnum_ok rfl h.1 h.2
  · intro q h
    exact to_numeric_pnum_err h
  · intro s n h
    simp only [to_numeric, dictGet_scale h]
  · intro s hn
    simp only [to_numeric]
    cases hd : dictGet? SCALE_MAP (pyLower (pyStrip s)) with
    | none => rfl
    | some v => exact absurd (dictGet?_mem hd) (hn v)
  · exact to_numeric_pnum_err (by rw [h0]; norm_num)
  · exact to_numeric_pnum_err (by rw [h6]; norm_num)

/-- C1 witness: the amended theorem applied at the in-range float 7/2 = 3.5
and at the padded label " Below ". -/
theorem to_numeric_spec_witness :
    to_numeric (.pnum (7/2)) = .ok (pyTrunc (7/2))
  ∧ to_numeric (.pstr " Below ") = .ok 1 := by
  have h3 : pyTrunc ((7:ℚ)/2) = 3 :=
    pyTrunc_eq (by norm_num) (by norm_num) (by norm_num)
  exact ⟨to_numeric_spec.1 (7/2) (by rw [h3]; norm_num),
    to_numeric_spec.2.2.1 " Below " 1 (by decide)⟩

/-- Every trait of every group belongs to the 24-trait vocabulary. -/
theorem group_traits_sub : ∀ g ∈ GROUP_MAP, ∀ x ∈ g.2, x ∈ TRAIT_24 := by decide

/-- Every group has exactly 3 constituent traits. -/
theorem group_len3 : ∀ g ∈ GROUP_MAP, g.2.length = 3 := by decide

/-- A concrete complete rating set: mission=1, drive=2, agency=2, all
other traits 3, so the "purpose energy" group has normalized values
{1, 2, 2}. -/
def vals122 : String → ℤ := fun t =>
  if t = "mission" then 1 else if t = "drive" then 2 else if t = "agency" then 2 else 3

theorem pyRound2_five_thirds : pyRound2 (5/3) = 167/100 := by
  rw [pyRound2, roundHalfEven_of_gt (f := 166)
    (by rw [Int.floor_eq_iff]; norm_num) (by norm_num)]
  norm_num

theorem pyRound2_three : pyRound2 (3 : ℚ) = 3 := by
  rw [show ((3:ℚ)) = ((3:ℤ) : ℚ) by norm_num, pyRound2_intCast]

theorem aggregate_canon (vals : String → ℤ)
    (hv : ∀ t ∈ TRAIT_24, 1 ≤ vals t ∧ vals t ≤ 5) :
    aggregate_eight_scores (canonRatings vals)
      = .ok (GROUP_MAP.map fun g => (g.1, pyRound2 (pyMean (g.2.map vals)))) := by
  simp only [aggregate_eight_scores, normMap_canon vals hv]
  exact aggGroups_mkNorm_ok TRAIT_24 vals GROUP_MAP (by decide)

/-- C2 (confirmed): on a complete 24-trait rating set,
`aggregate_eight_scores` returns, for each of the 8 fixed groups, the
arithmetic mean of its 3 constituent normalized traits rounded to 2
decimals; with all traits at a single value `v` every score is exactly
`v`; and the rating set whose "purpose energy" group holds {1, 2, 2}
scores 1.67 on that group (and 3 elsewhere). -/
theorem aggregate_eight_scores_spec (vals : String → ℤ)
    (hv : ∀ t ∈ TRAIT_24, 1 ≤ vals t ∧ vals t ≤ 5) :
    aggregate_eight_scores (canonRatings vals)
      = .ok (GROUP_MAP.map fun g => (g.1, pyRound2 (((g.2.map vals).sum : ℚ) / 3)))
  ∧ (∀ v : ℤ, (∀ t ∈ TRAIT_24, vals t = v) →
      aggregate_eight_scores (canonRatings vals)
        = .ok (GROUP_MAP.map fun g => (g.1, (v : ℚ))))
  ∧ aggregate_eight_scores (canonRatings vals122)
      = .ok [("purpose energy", 167/100), ("intellectual energy", 3),
             ("emotional energy", 3), ("people energy", 3),
             ("performance impact", 3), ("strategic framing", 3),
             ("mobilisation", 3), ("powerful relationships", 3)] := by
  refine ⟨?_, ?_, ?_⟩
  · rw [aggregate_canon vals hv]
    refine congrArg PyRes.ok (List.map_congr_left fun g hg => ?_)
    rw [pyMean, List.length_map, group_len3 g hg]
    norm_num
  · intro v hveq
    rw [aggregate_canon vals hv]
    refine congrArg PyRes.ok (List.map_congr_left fun g hg => ?_)
    have hconst : g.2.map vals = g.2.map (fun _ => v) :=
      List.map_congr_left fun x hx => hveq x (group_traits_sub g hg x hx)
    rw [hconst, List.map_const', pyMean, List.sum_replicate, List.length_replicate,
      group_len3 g hg]
    have hmean : (((3 • v : ℤ)) : ℚ) / ((3 : ℕ) : ℚ) = (v : ℚ) := by
      rw [nsmul_eq_mul]
      push_cast
      field_simp
    rw [hmean, pyRound2_intCast]
  · rw [aggregate_canon vals122 (by decide)]
    have hm122 : pyMean [1, 2, 2] = 5/3 := by
      rw [pyMean]
      norm_num
    have hm333 : pyMean [3, 3, 3] = 3 := by
      rw [pyMean]
      norm_num
    simp +decide [GROUP_MAP, vals122, hm122, hm333, pyRound2_five_thirds,
      pyRound2_three]

/-- C2 witness: the all-threes rating set scores exactly 3 on every group. -/
theorem aggregate_eight_scores_spec_witness :
    aggregate_eight_scores (canonRatings (fun _ => 3))
      = .ok (GROUP_MAP.map fun g => (g.1, (3 : ℚ))) :=
  (aggregate_eight_scores_spec (fun _ => 3) (by decide)).2.1 3 (fun _ _ => rfl)

/-- C3 (confirmed): removing any single trait from a complete (valid)
rating set makes `aggregate_eight_scores` raise
`ValueError("Missing rating for trait: <trait>")` naming exactly the
removed trait — the first absent trait in group-definition traversal
order — and no partial score dict is returned. -/
theorem aggregate_missing_trait (vals : String → ℤ)
    (hv : ∀ t ∈ TRAIT_24, 1 ≤ vals t ∧ vals t ≤ 5) (t : String)
    (ht : t ∈ TRAIT_24) :
    aggregate_eight_scores ((TRAIT_24.erase t).map fun s => (s, PyVal.pnum (vals s)))
      = .err ("Missing rating for trait: " ++ t) := by
  have hsub : ∀ s ∈ TRAIT_24.erase t, s ∈ TRAIT_24 :=
    fun s hs => List.mem_of_mem_erase hs
  have h1 : normMap ((TRAIT_24.erase t).map fun s => (s, PyVal.pnum (vals s)))
      = .ok ((TRAIT_24.erase t).map fun s => (pyLower s, vals s)) :=
    normMap_map_pnum _ _ (fun s hs => hv s (hsub s hs))
  have hlow : (TRAIT_24.erase t).map (fun s => (pyLower s, vals s))
      = mkNorm (TRAIT_24.erase t) vals :=
    List.map_congr_left fun s hs => by rw [pyLower_trait24 s (hsub s hs)]
  have hfm : ∀ x ∈ TRAIT_24, firstMissingG (TRAIT_24.erase x) GROUP_MAP = some x := by
    decide
  simp only [aggregate_eight_scores, h1, hlow]
  exact aggGroups_mkNorm_err _ _ _ _ (hfm t ht)

/-- C3 witness: removing "judgment" from the all-threes rating set makes
the aggregation fail naming "judgment". -/
theorem aggregate_missing_trait_witness :
    aggregate_eight_scores ((TRAIT_24.erase "judgment").map fun s => (s, PyVal.pnum 3))
      = .err "Missing rating for trait: judgment" :=
  aggregate_missing_trait (fun _ => 3) (by decide) "judgment" (by decide)

/-- C6 (confirmed): on a complete valid rating set, `split_radar_groups`
returns the two fixed radar mappings in list order with the normalized
values; the two trait lists are disjoint, of sizes 11 and 12, their union
is contained in the 24 traits, and "judgment" — itself one of the 24 —
appears in neither, so the union is a strict subset. -/
theorem split_radar_groups_spec (vals : String → ℤ)
    (hv : ∀ t ∈ TRAIT_24, 1 ≤ vals t ∧ vals t ≤ 5) :
    split_radar_groups (canonRatings vals)
      = .ok (RADAR1_TRAITS.map fun t => (t, vals t),
             RADAR2_TRAITS.map fun t => (t, vals t))
  ∧ (∀ t ∈ RADAR1_TRAITS, t ∉ RADAR2_TRAITS)
  ∧ RADAR1_TRAITS.length = 11 ∧ RADAR2_TRAITS.length = 12
  ∧ (∀ t ∈ RADAR1_TRAITS, t ∈ TRAIT_24) ∧ (∀ t ∈ RADAR2_TRAITS, t ∈ TRAIT_24)
  ∧ "judgment" ∈ TRAIT_24 ∧ "judgment" ∉ RADAR1_TRAITS
  ∧ "judgment" ∉ RADAR2_TRAITS := by
  refine ⟨?_, by decide, by decide, by decide, by decide, by decide, by decide,
    by decide, by decide⟩
  simp only [split_radar_groups, normMap_canon vals hv,
    buildRadar_mkNorm TRAIT_24 vals RADAR1_TRAITS (by decide),
    buildRadar_mkNorm TRAIT_24 vals RADAR2_TRAITS (by decide)]

/-- C6 witness: the split of the all-threes rating set. -/
theorem split_radar_groups_spec_witness :
    split_radar_groups (canonRatings (fun _ => 3))
      = .ok (RADAR1_TRAITS.map fun t => (t, (3:ℤ)),
             RADAR2_TRAITS.map fun t => (t, (3:ℤ))) :=
  (split_radar_groups_spec (fun _ => 3) (by decide)).1

/-! ### Shapes and geometry (`src/ppt_builder.py`)

A python-pptx shape is modelled by its name, whether it has a text frame,
its plain text content, and its geometry in EMU.  `Inches(x).emu` is
`int(x * 914400)`; the constants used by `build_report_pptx` evaluate (in
CPython float arithmetic as in exact arithmetic) to the EMU integers
recorded below. -/

structure Shape where
  name : String
  hasTextFrame : Bool
  text : String
  left : ℤ
  top : ℤ
  width : ℤ
  height : ℤ
  deriving DecidableEq, Repr

/-- `Inches(1.2).emu` as computed in `build_report_pptx`. -/
def TRACK_LEFT_EMU : ℤ := 1097280

/-- `Inches(6.5).emu` as computed in `build_report_pptx`. -/
def TRACK_RIGHT_EMU : ℤ := 5943600

/-- `Inches(5.5).emu`, the `max_width` constant of slides 5 and 7. -/
def MAX_BAR_WIDTH_EMU : ℤ := 5029200

/-- `_set_text` acting on a present shape: replaces the text if the shape
has a text frame, otherwise does nothing (the `shape is None` case is
handled at the slide level, where an absent lookup is a no-op). -/
def set_text (s : Shape) (newText : String) : Shape :=
  if s.hasTextFrame then { s with text := newText } else s

/-- `_resize_bar` acting on a present shape: shapes carrying a text frame
are skipped; otherwise the width becomes
`int(max_width_emu * (score / max_score))`. -/
def resize_bar (s : Shape) (score maxScore : ℚ) (maxWidthEmu : ℤ) : Shape :=
  if s.hasTextFrame then s
  else { s with width := pyTrunc ((maxWidthEmu : ℚ) * (score / maxScore)) }

/-- `_reposition_ball` acting on a present shape:
`frac = (rating - 1) / 4` and
`ball.left = track_left_emu + int((track_right_emu - track_left_emu) * frac)`. -/
def reposition_ball (b : Shape) (rating trackLeftEmu trackRightEmu : ℤ) : Shape :=
  { b with
    left := trackLeftEmu
      + pyTrunc (((trackRightEmu - trackLeftEmu : ℤ) : ℚ) * (((rating : ℚ) - 1) / 4)) }

/-- A concrete bar shape whose template width (100 EMU) differs from the
`max_width` constant. -/
def demoBar : Shape :=
  { name := "bar_purpose", hasTextFrame := false, text := "",
    left := 0, top := 0, width := 100, height := 10 }

/-- C4 counterexample: the claim predicts that resizing with
`score = max_score` returns the element's original (reference) width; the
code instead always scales the caller's fixed `max_width_emu` constant —
a bar of original width 100 resized with score 5 of 5 becomes 5029200 EMU
wide, not 100. -/
theorem resize_bar_ignores_reference_width :
    (resize_bar demoBar 5 5 MAX_BAR_WIDTH_EMU).width = 5029200
  ∧ (resize_bar demoBar 5 5 MAX_BAR_WIDTH_EMU).width
      ≠ pyTrunc ((demoBar.width : ℚ) * (5 / 5)) := by
  have h : (resize_bar demoBar 5 5 MAX_BAR_WIDTH_EMU).width = 5029200 := by
    rw [resize_bar]
    norm_num [demoBar, MAX_BAR_WIDTH_EMU]
    exact pyTrunc_eq (by norm_num) (by norm_num) (by norm_num)
  refine ⟨h, ?_⟩
  rw [h]
  have h100 : pyTrunc ((demoBar.width : ℚ) * (5 / 5)) = 100 := by
    norm_num [demoBar]
    exact pyTrunc_eq (by norm_num) (by norm_num) (by norm_num)
  rw [h100]
  norm_num

/-- C4 (amended): `_resize_bar` sets
`new_width = int(max_width_emu * (score / max_score))` where
`max_width_emu` is the caller's fixed constant (5.5 inches in
`build_report_pptx`), independent of the element's current or original
width; consequently `score = max_score` yields `new_width =
max_width_emu` (not the element's reference width), `score = 0` yields
width 0, and resizing the same element twice with the same arguments
equals resizing it once. -/
theorem resize_bar_spec (s : Shape) (score maxScore : ℚ) (w : ℤ)
    (hs : s.hasTextFrame = false) :
    (resize_bar s score maxScore w).width
        = pyTrunc ((w : ℚ) * (score / maxScore))
  ∧ (maxScore ≠ 0 → score = maxScore → (resize_bar s score maxScore w).width = w)
  ∧ (score = 0 → (resize_bar s score maxScore w).width = 0)
  ∧ resize_bar (resize_bar s score maxScore w) score maxScore w
      = resize_bar s score maxScore w := by
  have hbase : resize_bar s score maxScore w
      = { s with width := pyTrunc ((w : ℚ) * (score / maxScore)) } := by
    rw [resize_bar, if_neg (by rw [hs]; exact Bool.false_ne_true)]
  refine ⟨by rw [hbase], ?_, ?_, ?_⟩
  · intro hm he
    rw [hbase]
    show pyTrunc ((w : ℚ) * (score / maxScore)) = w
    rw [he, div_self hm, mul_one, pyTrunc_intCast]
  · intro h0
    rw [hbase]
    show pyTrunc ((w : ℚ) * (score / maxScore)) = 0
    rw [h0, zero_div, mul_zero, show ((0:ℚ)) = ((0:ℤ) : ℚ) by norm_num,
      pyTrunc_intCast]
  · rw [hbase, resize_bar, if_neg (by rw [hs]; exact Bool.false_ne_true)]

/-- C4 witness: the amended theorem applied to the concrete demo bar with
score 5 of 5. -/
theorem resize_bar_spec_witness :
    (resize_bar demoBar 5 5 MAX_BAR_WIDTH_EMU).width = MAX_BAR_WIDTH_EMU :=
  (resize_bar_spec demoBar 5 5 MAX_BAR_WIDTH_EMU rfl).2.1 (by norm_num) rfl

/-- A concrete indicator-marker (ball) shape. -/
def demoBall : Shape :=
  { name := "ball_fit", hasTextFrame := false, text := "",
    left := 0, top := 0, width := 182880, height := 182880 }

/-- C5 (confirmed): with the track bounds used by `build_report_pptx`
(`Inches(1.2).emu = 1097280` and `Inches(6.5).emu = 5943600`, whose
difference is divisible by 4), `_reposition_ball` sets the marker's left
edge exactly to `left + (rating - 1) / (5 - 1) * (right - left)` for
every rating 1..5; rating 1 lands exactly on the left bound, rating 5
exactly on the right bound, and rating 3 exactly on the midpoint. -/
theorem reposition_ball_spec (b : Shape) (r : ℤ) (h1 : 1 ≤ r) (h5 : r ≤ 5) :
    (((reposition_ball b r TRACK_LEFT_EMU TRACK_RIGHT_EMU).left : ℤ) : ℚ)
        = (TRACK_LEFT_EMU : ℚ)
          + ((r : ℚ) - 1) / 4 * ((TRACK_RIGHT_EMU : ℚ) - (TRACK_LEFT_EMU : ℚ))
  ∧ (r = 1 → (reposition_ball b r TRACK_LEFT_EMU TRACK_RIGHT_EMU).left
      = TRACK_LEFT_EMU)
  ∧ (r = 5 → (reposition_ball b r TRACK_LEFT_EMU TRACK_RIGHT_EMU).left
      = TRACK_RIGHT_EMU)
  ∧ (r = 3 → (reposition_ball b r TRACK_LEFT_EMU TRACK_RIGHT_EMU).left
      = (TRACK_LEFT_EMU + TRACK_RIGHT_EMU) / 2) := by
  have key : ∀ n : ℤ,
      ((TRACK_RIGHT_EMU - TRACK_LEFT_EMU : ℤ) : ℚ) * (((r : ℚ) - 1) / 4) = (n : ℚ)
      → (reposition_ball b r TRACK_LEFT_EMU TRACK_RIGHT_EMU).left
        = TRACK_LEFT_EMU + n := by
    intro n hn
    rw [reposition_ball, hn, pyTrunc_intCast]
  interval_cases r
  · have hK := key 0 (by norm_num [TRACK_LEFT_EMU, TRACK_RIGHT_EMU])
    refine ⟨?_, fun _ => ?_, fun h => absurd h (by decide), fun h => absurd h (by decide)⟩
    · rw [hK]
      push_cast
      norm_num [TRACK_LEFT_EMU, TRACK_RIGHT_EMU]
    · rw [hK, add_zero]
  · have hK := key 1211580 (by norm_num [TRACK_LEFT_EMU, TRACK_RIGHT_EMU])
    refine ⟨?_, fun h => absurd h (by decide), fun h => absurd h (by decide),
      fun h => absurd h (by decide)⟩
    rw [hK]
    push_cast
    norm_num [TRACK_LEFT_EMU, TRACK_RIGHT_EMU]
  · have hK := key 2423160 (by norm_num [TRACK_LEFT_EMU, TRACK_RIGHT_EMU])
    refine ⟨?_, fun h => absurd h (by decide), fun h => absurd h (by decide),
      fun _ => ?_⟩
    · rw [hK]
      push_cast
      norm_num [TRACK_LEFT_EMU, TRACK_RIGHT_EMU]
    · rw [hK]
      norm_num [TRACK_LEFT_EMU, TRACK_RIGHT_EMU]
  · have hK := key 3634740 (by norm_num [TRACK_LEFT_EMU, TRACK_RIGHT_EMU])
    refine ⟨?_, fun h => absurd h (by decide), fun h => absurd h (by decide),
      fun h => absurd h (by decide)⟩
    rw [hK]
    push_cast
    norm_num [TRACK_LEFT_EMU, TRACK_RIGHT_EMU]
  · have hK := key 4846320 (by norm_num [TRACK_LEFT_EMU, TRACK_RIGHT_EMU])
    refine ⟨?_, fun h => absurd h (by decide), fun _ => ?_,
      fun h => absurd h (by decide)⟩
    · rw [hK]
      push_cast
      norm_num [TRACK_LEFT_EMU, TRACK_RIGHT_EMU]
    · rw [hK]
      norm_num [TRACK_LEFT_EMU, TRACK_RIGHT_EMU]

/-- C5 witness: rating 3 places the demo ball exactly at the midpoint of
the track. -/
theorem reposition_ball_spec_witness :
    (reposition_ball demoBall 3 TRACK_LEFT_EMU TRACK_RIGHT_EMU).left
      = (TRACK_LEFT_EMU + TRACK_RIGHT_EMU) / 2 :=
  (reposition_ball_spec demoBall 3 (by norm_num) (by norm_num)).2.2.2 rfl

/-! ### Text frames at run level (`shape.text = ...`)

`_set_text` replaces a shape's text with `shape.text = new_text`.  In
python-pptx this setter removes every existing paragraph and run and
re-creates one paragraph per line of the assigned string, each holding a
single run with *no* explicit formatting (the new runs inherit the
placeholder/theme defaults; the old runs' fonts are discarded). -/

structure TextRun where
  text : String
  fontName : Option String
  fontSize : Option ℤ
  bold : Option Bool
  italic : Option Bool
  deriving DecidableEq, Repr

/-- A run with no explicit formatting, as python-pptx creates when text
is assigned. -/
def plainRun (t : String) : TextRun :=
  { text := t, fontName := none, fontSize := none, bold := none, italic := none }

/-- Split a character list at every occurrence of `sep`. -/
def splitOnChar (sep : Char) : List Char → List (List Char)
  | [] => [[]]
  | c :: cs =>
    let r := splitOnChar sep cs
    if c = sep then [] :: r
    else
      match r with
      | [] => [[c]]
      | h :: t => (c :: h) :: t

/-- The python-pptx `TextFrame.text` setter: one paragraph per line, each
a single unformatted run; the previous paragraphs (and their run styles)
are discarded entirely. -/
def pptxSetFrameText (_tf : List (List TextRun)) (s : String) :
    List (List TextRun) :=
  (splitOnChar '\x0a' s.data).map (fun line => [plainRun ⟨line⟩])

/-- `_set_text` at run level: assign the text if the shape has a text
frame, else do nothing. -/
def set_text_frame (hasTF : Bool) (tf : List (List TextRun)) (newText : String) :
    List (List TextRun) :=
  if hasTF then pptxSetFrameText tf newText else tf

/-- A frame whose first (and only) run carries explicit styling. -/
def demoFrame : List (List TextRun) :=
  [[{ text := "old", fontName := some "Arial", fontSize := some 24,
      bold := some true, italic := none }]]

/-- C8 counterexample: replacing the styled demo frame's text with the
two-line string "l1\nl2" produces two paragraphs of unformatted runs;
the first run's font face, size and weight are *not* re-applied to the
inserted lines, contradicting the claim. -/
theorem set_text_drops_first_run_style :
    set_text_frame true demoFrame "l1\x0al2" = [[plainRun "l1"], [plainRun "l2"]]
  ∧ ¬ (∀ p ∈ set_text_frame true demoFrame "l1\x0al2", ∀ r ∈ p,
        r.fontName = some "Arial" ∧ r.fontSize = some 24 ∧ r.bold = some true) := by
  constructor
  · decide
  · decide

/-- C8 (amended): the Document Populator's `_set_text` simply assigns
`shape.text`, which rebuilds the text frame as one paragraph per line
each holding a single run with no explicit font face, size, weight or
style — the output is independent of the previously present runs, so the
first run's style is *not* preserved or re-applied. -/
theorem set_text_frame_spec (tf : List (List TextRun)) (s : String) :
    (∀ p ∈ set_text_frame true tf s, ∃ t : String, p = [plainRun t])
  ∧ set_text_frame true tf s = set_text_frame true demoFrame s
  ∧ set_text_frame false tf s = tf := by
  refine ⟨?_, rfl, rfl⟩
  intro p hp
  simp only [set_text_frame, if_pos trivial, pptxSetFrameText, List.mem_map] at hp
  obtain ⟨line, _, rfl⟩ := hp
  exact ⟨⟨line⟩, rfl⟩

/-- C8 witness: the amended theorem applied to the styled demo frame and
a two-line string. -/
theorem set_text_frame_spec_witness :
    ∃ t : String, [plainRun "a"] = [plainRun t] :=
  (set_text_frame_spec demoFrame "a\x0ab").1 [plainRun "a"] (by decide)

/-! ### Slides and the document populator (`build_report_pptx`)

A slide is its ordered shape list; a document is its ordered slide list.
`_safe_shape` is first-match lookup by name; a mutation through an absent
name is a no-op.  Pictures inserted for the radar charts receive a
python-pptx auto-generated name ("Picture N"); we model it with the
constant `PIC_NAME`, which is not the name of any template element the
code addresses. -/

/-- `_safe_shape`: the first shape whose name matches, else `None`. -/
def findShape? (slide : List Shape) (target : String) : Option Shape :=
  slide.find? (fun s => s.name == target)

/-- Mutate (in place) the first shape named `target`; no-op when absent. -/
def updateFirst (target : String) (f : Shape → Shape) : List Shape → List Shape
  | [] => []
  | s :: rest => if s.name == target then f s :: rest else s :: updateFirst target f rest

/-- Remove the first shape named `target` (the placeholder removal
`ph._element.getparent().remove(ph._element)`). -/
def removeFirst (target : String) : List Shape → List Shape
  | [] => []
  | s :: rest => if s.name == target then rest else s :: removeFirst target rest

/-- `_set_text(_safe_shape(slide, target), text)`. -/
def setTextByName (slide : List Shape) (target text : String) : List Shape :=
  updateFirst target (fun s => set_text s text) slide

/-- `_resize_bar(_safe_shape(slide, target), score, max_score, max_width)`. -/
def resizeBarByName (slide : List Shape) (target : String)
    (score maxScore : ℚ) (maxW : ℤ) : List Shape :=
  updateFirst target (fun s => resize_bar s score maxScore maxW) slide

/-- `_reposition_ball(_safe_shape(slide, target), rating, left, right)`. -/
def repositionBallByName (slide : List Shape) (target : String)
    (rating trackL trackR : ℤ) : List Shape :=
  updateFirst target (fun s => reposition_ball s rating trackL trackR) slide

/-- Name given to inserted pictures; python-pptx generates "Picture N",
which is never one of the template element names addressed by the code.
The empty string stands in for that fresh name. -/
def PIC_NAME : String := ""

/-- The slide-6 radar-chart insertion: if the placeholder is found, a
picture with the placeholder's geometry is appended to the shape list
(`add_picture`) and the placeholder is removed. -/
def insertPicture (slide : List Shape) (target : String) : List Shape :=
  match findShape? slide target with
  | none => slide
  | some ph =>
    removeFirst target slide ++
      [{ name := PIC_NAME, hasTextFrame := false, text := "",
         left := ph.left, top := ph.top, width := ph.width, height := ph.height }]

/-- The narrative record produced by the Narrative Expander
(`expanded` in `src/app.py`): entries are (title, paragraph) pairs. -/
structure Narrative where
  personal_profile : String
  strengths : List (String × String)
  development_areas : List (String × String)
  future_considerations : String
  personal_development : List (String × String)
  org_support : List (String × String)
  deriving DecidableEq, Repr

/-- From `src/app.py`: between `json.loads` succeeding and the call to
`build_report_pptx` there is no validation of the parsed record's shape —
in particular no arity check on its arrays — so every parsed record is
handed to the populator. -/
def appAcceptsParsedRecord (_r : Narrative) : Bool := true

/-- The quadrant-key → ball-shape-name table of the slide-3 summary block. -/
def BALL_MAP : List (String × String) :=
  [("Fit for Role", "ball_fit"), ("Capabilities", "ball_cap"),
   ("Potential", "ball_pot"), ("Future Considerations", "ball_future")]

/-- `name_map` of the slide-5 energy bars. -/
def BAR_NAME_MAP : List (String × String) :=
  [("purpose energy", "bar_purpose"), ("intellectual energy", "bar_intellectual"),
   ("emotional energy", "bar_emotional"), ("people energy", "bar_people"),
   ("performance impact", "bar_performance"), ("strategic framing", "bar_strategic"),
   ("mobilisation", "bar_mobilisation"), ("powerful relationships", "bar_relationships")]

/-- Slide 1: candidate name and role/company text boxes. -/
def populateSlide1 (candidate role : String) (s : List Shape) : List Shape :=
  setTextByName (setTextByName s "candidate_name" candidate) "role_company" role

/-- One iteration of the slide-3 `for i in range(3)` loop (0-based `i`;
the shape names use `i+1`): an out-of-range list index raises
`IndexError`. -/
def strengthDevStep (a : Narrative) (i : ℕ) (s : List Shape) : PyRes (List Shape) :=
  match a.strengths[i]? with
  | none => .err "IndexError: list index out of range"
  | some st =>
    let s1 := setTextByName s ("strength_" ++ toString (i+1) ++ "_title") st.1
    let s2 := setTextByName s1 ("strength_" ++ toString (i+1) ++ "_body") st.2
    match a.development_areas[i]? with
    | none => .err "IndexError: list index out of range"
    | some dv =>
      .ok (setTextByName
            (setTextByName s2 ("dev_" ++ toString (i+1) ++ "_title") dv.1)
            ("dev_" ++ toString (i+1) ++ "_body") dv.2)

/-- One iteration of the slide-4 `for i in range(2)` loop. -/
def pdOrgStep (a : Narrative) (i : ℕ) (s : List Shape) : PyRes (List Shape) :=
  match a.personal_development[i]? with
  | none => .err "IndexError: list index out of range"
  | some pd =>
    let s1 := setTextByName s ("pd_" ++ toString (i+1) ++ "_title") pd.1
    let s2 := setTextByName s1 ("pd_" ++ toString (i+1) ++ "_body") pd.2
    match a.org_support[i]? with
    | none => .err "IndexError: list index out of range"
    | some og =>
      .ok (setTextByName
            (setTextByName s2 ("org_" ++ toString (i+1) ++ "_title") og.1)
            ("org_" ++ toString (i+1) ++ "_body") og.2)

/-- Run loop iterations in order, propagating the first raised exception. -/
def foldSteps (f : ℕ → List Shape → PyRes (List Shape)) :
    List ℕ → List Shape → PyRes (List Shape)
  | [], s => .ok s
  | i :: is, s =>
    match f i s with
    | .err e => .err e
    | .ok s2 => foldSteps f is s2

/-- The slide-3 `if summary_ratings:` block: reposition the four balls,
each rating defaulting to 3 via `summary_ratings.get(key, 3)`. -/
def summaryStep (summary : List (String × ℤ)) (s : List Shape) : List Shape :=
  if summary = [] then s
  else
    repositionBallByName
      (repositionBallByName
        (repositionBallByName
          (repositionBallByName s "ball_fit" (dictGetD summary "Fit for Role" 3)
            TRACK_LEFT_EMU TRACK_RIGHT_EMU)
          "ball_cap" (dictGetD summary "Capabilities" 3)
          TRACK_LEFT_EMU TRACK_RIGHT_EMU)
        "ball_pot" (dictGetD summary "Potential" 3)
        TRACK_LEFT_EMU TRACK_RIGHT_EMU)
      "ball_future" (dictGetD summary "Future Considerations" 3)
      TRACK_LEFT_EMU TRACK_RIGHT_EMU

/-- Slide 3: profile text, the three strength/development pairs, future
considerations, then the summary balls. -/
def populateSlide3 (a : Narrative) (summary : List (String × ℤ))
    (s : List Shape) : PyRes (List Shape) :=
  match foldSteps (strengthDevStep a)
      [0, 1, 2] (setTextByName s "personal_profile" a.personal_profile) with
  | .err e => .err e
  | .ok s1 =>
    .ok (summaryStep summary
      (setTextByName s1 "future_considerations" a.future_considerations))

/-- Slide 4: the two personal-development and organisational-support pairs. -/
def populateSlide4 (a : Narrative) (s : List Shape) : PyRes (List Shape) :=
  foldSteps (pdOrgStep a) [0, 1] s

/-- The slide-5 `for label, score in bar_scores.items()` loop: labels are
lower-cased, looked up in `name_map`, unknown labels skipped. -/
def barsStep (bars : List (String × ℚ)) (s : List Shape) : List Shape :=
  bars.foldl (fun acc p =>
    match dictGet? BAR_NAME_MAP (pyLower p.1) with
    | none => acc
    | some shapeName => resizeBarByName acc shapeName p.2 5 MAX_BAR_WIDTH_EMU) s

/-- Slide 6: insert the radar-chart pictures whose files exist. -/
def spiderStep (r1 r2 : Bool) (s : List Shape) : List Shape :=
  let s1 := if r1 then insertPicture s "spider_1" else s
  if r2 then insertPicture s1 "spider_2" else s1

/-- The slide-7 reasoning-bars loop: per label, resize `bar_<label>` to
`score` percent of the maximum and set `label_<label>` to "<score>%". -/
def reasoningStep (reas : List (String × ℤ)) (s : List Shape) : List Shape :=
  reas.foldl (fun acc p =>
    setTextByName
      (resizeBarByName acc ("bar_" ++ pyLower p.1) ((p.2 : ℚ)) 100 MAX_BAR_WIDTH_EMU)
      ("label_" ++ pyLower p.1) (toString p.2 ++ "%")) s

/-- `prs.slides[i]`: raises `IndexError` when the template has too few
slides (a fatal, structural error). -/
def getSlide (doc : List (List Shape)) (i : ℕ) : PyRes (List Shape) :=
  match doc[i]? with
  | some s => .ok s
  | none => .err "IndexError: slide index out of range"

/-- `build_report_pptx` from `src/ppt_builder.py`.  The document is the
in-memory presentation; the returned document is what `prs.save` writes
(an exception leaves no output file).  `r1`/`r2` state whether a radar
chart path was supplied and exists; `bars`, `summary` and `reas` model
the three optional dicts (an absent/None dict and an empty dict are both
falsy, so both are the empty list). -/
def build_report_pptx (doc : List (List Shape)) (candidate role : String)
    (a : Narrative) (r1 r2 : Bool) (bars : List (String × ℚ))
    (summary reas : List (String × ℤ)) : PyRes (List (List Shape)) :=
  match getSlide doc 0 with
  | .err e => .err e
  | .ok s1 =>
    let doc1 := doc.set 0 (populateSlide1 candidate role s1)
    match getSlide doc1 2 with
    | .err e => .err e
    | .ok s3 =>
      match populateSlide3 a summary s3 with
      | .err e => .err e
      | .ok s3p =>
        let doc3 := doc1.set 2 s3p
        match getSlide doc3 3 with
        | .err e => .err e
        | .ok s4 =>
          match populateSlide4 a s4 with
          | .err e => .err e
          | .ok s4p =>
            let doc4 := doc3.set 3 s4p
            match (if bars = [] then PyRes.ok doc4 else
                match getSlide doc4 4 with
                | .err e => PyRes.err e
                | .ok s5 => PyRes.ok (doc4.set 4 (barsStep bars s5))) with
            | .err e => .err e
            | .ok doc5 =>
              match getSlide doc5 5 with
              | .err e => .err e
              | .ok s6 =>
                let doc6 := doc5.set 5 (spiderStep r1 r2 s6)
                if reas = [] then .ok doc6
                else
                  match getSlide doc6 6 with
                  | .err e => .err e
                  | .ok s7 => .ok (doc6.set 6 (reasoningStep reas s7))

/-! ### The success path of the populator as a total function -/

/-- The slide-3 loop body on the success path (entries read with a
default that is never used when the arities are correct). -/
def strengthDevPure (a : Narrative) (i : ℕ) (s : List Shape) : List Shape :=
  let st := a.strengths.getD i ("", "")
  let dv := a.development_areas.getD i ("", "")
  setTextByName
    (setTextByName
      (setTextByName
        (setTextByName s ("strength_" ++ toString (i+1) ++ "_title") st.1)
        ("strength_" ++ toString (i+1) ++ "_body") st.2)
      ("dev_" ++ toString (i+1) ++ "_title") dv.1)
    ("dev_" ++ toString (i+1) ++ "_body") dv.2

/-- The slide-4 loop body on the success path. -/
def pdOrgPure (a : Narrative) (i : ℕ) (s : List Shape) : List Shape :=
  let pd := a.personal_development.getD i ("", "")
  let og := a.org_support.getD i ("", "")
  setTextByName
    (setTextByName
      (setTextByName
        (setTextByName s ("pd_" ++ toString (i+1) ++ "_title") pd.1)
        ("pd_" ++ toString (i+1) ++ "_body") pd.2)
      ("org_" ++ toString (i+1) ++ "_title") og.1)
    ("org_" ++ toString (i+1) ++ "_body") og.2

/-- Slide 3 on the success path. -/
def slide3Pure (a : Narrative) (summary : List (String × ℤ))
    (s : List Shape) : List Shape :=
  summaryStep summary
    (setTextByName
      (strengthDevPure a 2 (strengthDevPure a 1 (strengthDevPure a 0
        (setTextByName s "personal_profile" a.personal_profile))))
      "future_considerations" a.future_considerations)

/-- Slide 4 on the success path. -/
def slide4Pure (a : Narrative) (s : List Shape) : List Shape :=
  pdOrgPure a 1 (pdOrgPure a 0 s)

/-- The whole populator on the success path. -/
def buildPure (doc : List (List Shape)) (candidate role : String)
    (a : Narrative) (r1 r2 : Bool) (bars : List (String × ℚ))
    (summary reas : List (String × ℤ)) : List (List Shape) :=
  let d1 := doc.set 0 (populateSlide1 candidate role (doc.getD 0 []))
  let d3 := d1.set 2 (slide3Pure a summary (d1.getD 2 []))
  let d4 := d3.set 3 (slide4Pure a (d3.getD 3 []))
  let d5 := if bars = [] then d4 else d4.set 4 (barsStep bars (d4.getD 4 []))
  let d6 := d5.set 5 (spiderStep r1 r2 (d5.getD 5 []))
  if reas = [] then d6 else d6.set 6 (reasoningStep reas (d6.getD 6 []))

/-- With at least 7 slides and the documented arities (3 strengths, 3
development areas, 2 personal-development and 2 organisational-support
entries), `build_report_pptx` succeeds and returns exactly the
success-path document. -/
theorem build_report_ok (doc : List (List Shape)) (candidate role : String)
    (a : Narrative) (r1 r2 : Bool) (bars : List (String × ℚ))
    (summary reas : List (String × ℤ))
    (hdoc : 7 ≤ doc.length)
    (hs : a.strengths.length = 3) (hd : a.development_areas.length = 3)
    (hp : a.personal_development.length = 2) (ho : a.org_support.length = 2) :
    build_report_pptx doc candidate role a r1 r2 bars summary reas
      = .ok (buildPure doc candidate role a r1 r2 bars summary reas) := by
  obtain ⟨st1, st2, st3, hsl⟩ := List.length_eq_three.1 hs
  obtain ⟨dv1, dv2, dv3, hdl⟩ := List.length_eq_three.1 hd
  obtain ⟨pd1, pd2, hpl⟩ := List.length_eq_two.1 hp
  obtain ⟨og1, og2, hol⟩ := List.length_eq_two.1 ho
  rcases doc with _ | ⟨l0, doc⟩
  · simp at hdoc
  rcases doc with _ | ⟨l1, doc⟩
  · simp at hdoc
  rcases doc with _ | ⟨l2, doc⟩
  · simp at hdoc
  rcases doc with _ | ⟨l3, doc⟩
  · simp at hdoc
  rcases doc with _ | ⟨l4, doc⟩
  · simp at hdoc
  rcases doc with _ | ⟨l5, doc⟩
  · simp at hdoc
  rcases doc with _ | ⟨l6, doc⟩
  · simp at hdoc
  by_cases hb : bars = [] <;> by_cases hr : reas = [] <;>
    simp [build_report_pptx, buildPure, getSlide, populateSlide3, populateSlide4,
      foldSteps, strengthDevStep, pdOrgStep, strengthDevPure, pdOrgPure,
      slide3Pure, slide4Pure, hsl, hdl, hpl, hol, hb, hr]

/-- A record violating the fixed arity: only two strength entries. -/
def badRec : Narrative :=
  { personal_profile := "profile",
    strengths := [("s1", "b1"), ("s2", "b2")],
    development_areas := [("d1", "e1"), ("d2", "e2"), ("d3", "e3")],
    future_considerations := "future",
    personal_development := [("p1", "q1"), ("p2", "q2")],
    org_support := [("o1", "r1"), ("o2", "r2")] }

/-- A minimal 7-slide document. -/
def doc7 : List (List Shape) := List.replicate 7 []

/-- C9 counterexample: `badRec` deviates from the required arities
(2 strength entries instead of 3), yet the orchestrator accepts it after
JSON parsing and `build_report_pptx` *is* invoked with it — the arity
violation surfaces only inside the populator, as an `IndexError`. -/
theorem malformed_record_reaches_populator :
    appAcceptsParsedRecord badRec = true
  ∧ build_report_pptx doc7 "Jane Doe" "CTO, Acme" badRec false false [] [] []
      = .err "IndexError: list index out of range" := by
  constructor
  · rfl
  · rfl

/-- C9 (amended): the orchestrator in `src/app.py` performs no arity
validation between parsing the narrative record and calling the Document
Populator — every parsed record is accepted — and a record with too few
strength entries is therefore passed to `build_report_pptx`, which fails
inside with an `IndexError` (producing no output document) instead of
being rejected beforehand. -/
theorem app_no_arity_validation :
    (∀ r : Narrative, appAcceptsParsedRecord r = true)
  ∧ (∀ (doc : List (List Shape)) (candidate role : String) (a : Narrative)
      (r1 r2 : Bool) (bars : List (String × ℚ)) (summary reas : List (String × ℤ)),
      7 ≤ doc.length → a.strengths.length = 2 →
      a.development_areas.length = 3 →
      build_report_pptx doc candidate role a r1 r2 bars summary reas
        = .err "IndexError: list index out of range") := by
  constructor
  · intro r
    rfl
  · intro doc candidate role a r1 r2 bars summary reas hdoc hs hd
    obtain ⟨st1, st2, hsl⟩ := List.length_eq_two.1 hs
    obtain ⟨dv1, dv2, dv3, hdl⟩ := List.length_eq_three.1 hd
    rcases doc with _ | ⟨l0, doc⟩
    · simp at hdoc
    rcases doc with _ | ⟨l1, doc⟩
    · simp at hdoc
    rcases doc with _ | ⟨l2, doc⟩
    · simp at hdoc
    simp [build_report_pptx, getSlide, populateSlide3, foldSteps,
      strengthDevStep, hsl, hdl]

/-- C9 witness: the amended theorem applied to a concrete 8-slide
document and the malformed record. -/
theorem app_no_arity_validation_witness :
    appAcceptsParsedRecord badRec = true
  ∧ build_report_pptx (List.replicate 8 []) "Ann" "CEO, Corp" badRec
      true true [] [] [] = .err "IndexError: list index out of range" :=
  ⟨app_no_arity_validation.1 badRec,
   app_no_arity_validation.2 (List.replicate 8 []) "Ann" "CEO, Corp" badRec
     true true [] [] [] (by simp) rfl rfl⟩

/-! ### Name-filter lemmas for the mutation primitives -/

theorem updateFirst_name_mem {t : String} {f : Shape → Shape}
    (hf : ∀ x, (f x).name = x.name) :
    ∀ {l : List Shape} {x : Shape}, x ∈ updateFirst t f l → ∃ y ∈ l, x.name = y.name := by
  intro l
  induction l with
  | nil => intro x hx; cases hx
  | cons s rest ih =>
    intro x hx
    rw [updateFirst] at hx
    by_cases hs : (s.name == t) = true
    · rw [if_pos hs] at hx
      rcases List.mem_cons.1 hx with rfl | hx
      · exact ⟨s, List.mem_cons_self s rest, hf s⟩
      · exact ⟨x, List.mem_cons_of_mem _ hx, rfl⟩
    · rw [if_neg hs] at hx
      rcases List.mem_cons.1 hx with rfl | hx
      · exact ⟨x, List.mem_cons_self x rest, rfl⟩
      · obtain ⟨y, hy, hxy⟩ := ih hx
        exact ⟨y, List.mem_cons_of_mem _ hy, hxy⟩

theorem filter_updateFirst_ne {m t : String} (hmt : m ≠ t) (f : Shape → Shape)
    (hf : ∀ x, (f x).name = x.name) (l : List Shape) :
    (updateFirst t f l).filter (fun x => x.name == m)
      = l.filter (fun x => x.name == m) := by
  induction l with
  | nil => rfl
  | cons s rest ih =>
    rw [updateFirst]
    by_cases hs : (s.name == t) = true
    · have hst : s.name = t := by simpa using hs
      have hm : (s.name == m) = false := by
        rw [hst]
        exact beq_eq_false_iff_ne.2 (fun h => hmt h.symm)
      have hfm : ((f s).name == m) = false := by rw [hf s]; exact hm
      rw [if_pos hs, List.filter, List.filter, hm, hfm]
    · rw [if_neg hs, List.filter, List.filter, ih]

theorem filter_updateFirst_eq (t : String) (f : Shape → Shape)
    (hf : ∀ x, (f x).name = x.name) (l : List Shape) :
    (updateFirst t f l).filter (fun x => x.name == t)
      = match l.filter (fun x => x.name == t) with
        | [] => []
        | h :: tl => f h :: tl := by
  induction l with
  | nil => rfl
  | cons s rest ih =>
    rw [updateFirst]
    by_cases hs : (s.name == t) = true
    · have hfs : ((f s).name == t) = true := by rw [hf s]; exact hs
      rw [if_pos hs, List.filter, List.filter, hs, hfs]
    · have hs' : (s.name == t) = false := by simpa using hs
      rw [if_neg hs, List.filter, List.filter, hs', ih]

theorem mem_removeFirst {t : String} :
    ∀ {l : List Shape} {x : Shape}, x ∈ removeFirst t l → x ∈ l := by
  intro l
  induction l with
  | nil => intro x hx; cases hx
  | cons s rest ih =>
    intro x hx
    rw [removeFirst] at hx
    by_cases hs : (s.name == t) = true
    · rw [if_pos hs] at hx
      exact List.mem_cons_of_mem _ hx
    · rw [if_neg hs] at hx
      rcases List.mem_cons.1 hx with rfl | hx
      · exact List.mem_cons_self x rest
      · exact List.mem_cons_of_mem _ (ih hx)

theorem filter_removeFirst_ne {m t : String} (hmt : m ≠ t) (l : List Shape) :
    (removeFirst t l).filter (fun x => x.name == m)
      = l.filter (fun x => x.name == m) := by
  induction l with
  | nil => rfl
  | cons s rest ih =>
    rw [removeFirst]
    by_cases hs : (s.name == t) = true
    · have hst : s.name = t := by simpa using hs
      have hm : (s.name == m) = false := by
        rw [hst]
        exact beq_eq_false_iff_ne.2 (fun h => hmt h.symm)
      rw [if_pos hs, List.filter, hm]
    · rw [if_neg hs, List.filter, List.filter, ih]

theorem filter_removeFirst_eq (t : String) (l : List Shape) :
    (removeFirst t l).filter (fun x => x.name == t)
      = (l.filter (fun x => x.name == t)).tail := by
  induction l with
  | nil => rfl
  | cons s rest ih =>
    rw [removeFirst]
    by_cases hs : (s.name == t) = true
    · rw [if_pos hs, List.filter, hs]
      simp
    · have hs' : (s.name == t) = false := by simpa using hs
      rw [if_neg hs, List.filter, List.filter, hs', ih]

theorem findShape?_eq_head (l : List Shape) (t : String) :
    findShape? l t = (l.filter (fun x => x.name == t)).head? := by
  induction l with
  | nil => rfl
  | cons s rest ih =>
    rw [findShape?, List.find?, List.filter]
    by_cases hs : (s.name == t) = true
    · rw [hs]
      rfl
    · have hs' : (s.name == t) = false := by simpa using hs
      rw [hs']
      exact ih

/-! ### Simulation between a document and the same document with one
named element removed -/

/-- Relation between a slide `s` and its counterpart `sE` from the run in
which every shape named `n` is absent: for every other template name `m`
(and excluding the auto-named inserted pictures) the two slides hold
exactly the same shapes, and `sE` never contains a shape named `n`. -/
def SlideRel (n : String) (s sE : List Shape) : Prop :=
  (∀ m : String, m ≠ n → m ≠ PIC_NAME →
    sE.filter (fun x => x.name == m) = s.filter (fun x => x.name == m))
  ∧ ∀ x ∈ sE, x.name ≠ n

theorem slideRel_nil (n : String) : SlideRel n [] [] :=
  ⟨fun _ _ _ => rfl, fun _ hx => absurd hx (List.not_mem_nil _)⟩

/-- Erasing every shape named `n` from a slide. -/
def eraseShapes (n : String) (slide : List Shape) : List Shape :=
  slide.filter (fun x => ! (x.name == n))

/-- Erasing the name `n` from every slide of a document: the shape
"named `n`" is absent from its slide. -/
def eraseDoc (n : String) (doc : List (List Shape)) : List (List Shape) :=
  doc.map (eraseShapes n)


theorem filter_eraseShapes_ne {m n : String} (hmn : m ≠ n) (s : List Shape) :
    (eraseShapes n s).filter (fun x => x.name == m)
      = s.filter (fun x => x.name == m) := by
  rw [eraseShapes, List.filter_filter]
  refine List.filter_congr fun x _ => ?_
  by_cases hxm : (x.name == m) = true
  · have hxm' : x.name = m := by simpa using hxm
    have hxn : (x.name == n) = false := by
      rw [hxm']
      exact beq_eq_false_iff_ne.2 hmn
    rw [hxm, hxn]
    rfl
  · have hxm' : (x.name == m) = false := by simpa using hxm
    rw [hxm']
    simp

theorem slideRel_eraseShapes (n : String) (s : List Shape) :
    SlideRel n s (eraseShapes n s) := by
  constructor
  · intro m hmn _
    exact filter_eraseShapes_ne hmn s
  · intro x hx
    have := List.of_mem_filter hx
    simpa using this

theorem slideRel_updateFirst {n : String} (t : String) (f : Shape → Shape)
    (hf : ∀ x, (f x).name = x.name) {s sE : List Shape} (h : SlideRel n s sE) :
    SlideRel n (updateFirst t f s) (updateFirst t f sE) := by
  constructor
  · intro m hmn hmp
    by_cases hmt : m = t
    · subst hmt
      rw [filter_updateFirst_eq m f hf, filter_updateFirst_eq m f hf,
        h.1 m hmn hmp]
    · rw [filter_updateFirst_ne hmt f hf, filter_updateFirst_ne hmt f hf,
        h.1 m hmn hmp]
  · intro x hx
    obtain ⟨y, hy, hxy⟩ := updateFirst_name_mem hf hx
    rw [hxy]
    exact h.2 y hy

theorem findShape?_none_of_no_name {t : String} {l : List Shape}
    (h : ∀ x ∈ l, x.name ≠ t) : findShape? l t = none := by
  rw [findShape?]
  refine List.find?_eq_none.2 fun x hx => ?_
  simpa using h x hx

theorem slideRel_insertPicture {n : String} (t : String)
    (hn : n ≠ PIC_NAME) (ht : t ≠ PIC_NAME) {s sE : List Shape}
    (h : SlideRel n s sE) :
    SlideRel n (insertPicture s t) (insertPicture sE t) := by
  have hpic_m : ∀ (ph : Shape) (m : String), m ≠ PIC_NAME →
      (List.filter (fun x => x.name == m)
        [({ name := PIC_NAME, hasTextFrame := false, text := "",
            left := ph.left, top := ph.top, width := ph.width,
            height := ph.height } : Shape)]) = [] := by
    intro ph m hmp
    have hb : (PIC_NAME == m) = false :=
      beq_eq_false_iff_ne.2 (fun he => hmp he.symm)
    simp [List.filter, hb]
  by_cases htn : t = n
  · subst htn
    have hnone : findShape? sE t = none := findShape?_none_of_no_name h.2
    cases hfs : findShape? s t with
    | none =>
      simp only [insertPicture, hfs, hnone]
      exact h
    | some ph =>
      simp only [insertPicture, hfs, hnone]
      constructor
      · intro m hmn hmp
        rw [List.filter_append, filter_removeFirst_ne hmn, hpic_m ph m hmp,
          List.append_nil, h.1 m hmn hmp]
      · exact h.2
  · have hfind : findShape? sE t = findShape? s t := by
      rw [findShape?_eq_head, findShape?_eq_head, h.1 t htn ht]
    cases hfs : findShape? s t with
    | none =>
      have hfsE : findShape? sE t = none := hfind.trans hfs
      simp only [insertPicture, hfs, hfsE]
      exact h
    | some ph =>
      have hfsE : findShape? sE t = some ph := hfind.trans hfs
      simp only [insertPicture, hfs, hfsE]
      constructor
      · intro m hmn hmp
        rw [List.filter_append, List.filter_append, hpic_m ph m hmp,
          List.append_nil, List.append_nil]
        by_cases hmt : m = t
        · subst hmt
          rw [filter_removeFirst_eq, filter_removeFirst_eq, h.1 m hmn hmp]
        · rw [filter_removeFirst_ne hmt, filter_removeFirst_ne hmt,
            h.1 m hmn hmp]
      · intro x hx
        rcases List.mem_append.1 hx with hx | hx
        · exact h.2 x (mem_removeFirst hx)
        · rw [List.mem_singleton] at hx
          subst hx
          exact fun he => hn he.symm

theorem set_text_name (x : Shape) (txt : String) : (set_text x txt).name = x.name := by
  rw [set_text]
  split <;> rfl

theorem resize_bar_name (x : Shape) (score maxScore : ℚ) (w : ℤ) :
    (resize_bar x score maxScore w).name = x.name := by
  rw [resize_bar]
  split <;> rfl

theorem reposition_ball_name (x : Shape) (r l t : ℤ) :
    (reposition_ball x r l t).name = x.name := rfl

theorem slideRel_setText {n : String} (t txt : String) {s sE : List Shape}
    (h : SlideRel n s sE) :
    SlideRel n (setTextByName s t txt) (setTextByName sE t txt) :=
  slideRel_updateFirst t _ (fun x => set_text_name x txt) h

theorem slideRel_resizeBar {n : String} (t : String) (score maxScore : ℚ) (w : ℤ)
    {s sE : List Shape} (h : SlideRel n s sE) :
    SlideRel n (resizeBarByName s t score maxScore w)
      (resizeBarByName sE t score maxScore w) :=
  slideRel_updateFirst t _ (fun x => resize_bar_name x score maxScore w) h

theorem slideRel_repositionBall {n : String} (t : String) (r trackL trackR : ℤ)
    {s sE : List Shape} (h : SlideRel n s sE) :
    SlideRel n (repositionBallByName s t r trackL trackR)
      (repositionBallByName sE t r trackL trackR) :=
  slideRel_updateFirst t _ (fun x => reposition_ball_name x r trackL trackR) h

theorem slideRel_populateSlide1 {n : String} (candidate role : String)
    {s sE : List Shape} (h : SlideRel n s sE) :
    SlideRel n (populateSlide1 candidate role s) (populateSlide1 candidate role sE) :=
  slideRel_setText _ _ (slideRel_setText _ _ h)

theorem slideRel_strengthDevPure {n : String} (a : Narrative) (i : ℕ)
    {s sE : List Shape} (h : SlideRel n s sE) :
    SlideRel n (strengthDevPure a i s) (strengthDevPure a i sE) := by
  simp only [strengthDevPure]
  exact slideRel_setText _ _ (slideRel_setText _ _
    (slideRel_setText _ _ (slideRel_setText _ _ h)))

theorem slideRel_pdOrgPure {n : String} (a : Narrative) (i : ℕ)
    {s sE : List Shape} (h : SlideRel n s sE) :
    SlideRel n (pdOrgPure a i s) (pdOrgPure a i sE) := by
  simp only [pdOrgPure]
  exact slideRel_setText _ _ (slideRel_setText _ _
    (slideRel_setText _ _ (slideRel_setText _ _ h)))

theorem slideRel_summaryStep {n : String} (summary : List (String × ℤ))
    {s sE : List Shape} (h : SlideRel n s sE) :
    SlideRel n (summaryStep summary s) (summaryStep summary sE) := by
  rw [summaryStep, summaryStep]
  by_cases hs0 : summary = []
  · rw [if_pos hs0, if_pos hs0]
    exact h
  · rw [if_neg hs0, if_neg hs0]
    exact slideRel_repositionBall _ _ _ _ (slideRel_repositionBall _ _ _ _
      (slideRel_repositionBall _ _ _ _ (slideRel_repositionBall _ _ _ _ h)))

theorem slideRel_slide3Pure {n : String} (a : Narrative)
    (summary : List (String × ℤ)) {s sE : List Shape} (h : SlideRel n s sE) :
    SlideRel n (slide3Pure a summary s) (slide3Pure a summary sE) := by
  simp only [slide3Pure]
  exact slideRel_summaryStep _ (slideRel_setText _ _
    (slideRel_strengthDevPure a 2 (slideRel_strengthDevPure a 1
      (slideRel_strengthDevPure a 0 (slideRel_setText _ _ h)))))

theorem slideRel_slide4Pure {n : String} (a : Narrative)
    {s sE : List Shape} (h : SlideRel n s sE) :
    SlideRel n (slide4Pure a s) (slide4Pure a sE) := by
  simp only [slide4Pure]
  exact slideRel_pdOrgPure a 1 (slideRel_pdOrgPure a 0 h)

theorem slideRel_barsStep {n : String} (bars : List (String × ℚ)) :
    ∀ {s sE : List Shape}, SlideRel n s sE →
      SlideRel n (barsStep bars s) (barsStep bars sE) := by
  induction bars with
  | nil => intro s sE h; exact h
  | cons p ps ih =>
    intro s sE h
    have hstep : SlideRel n
        (match dictGet? BAR_NAME_MAP (pyLower p.1) with
         | none => s
         | some sn => resizeBarByName s sn p.2 5 MAX_BAR_WIDTH_EMU)
        (match dictGet? BAR_NAME_MAP (pyLower p.1) with
         | none => sE
         | some sn => resizeBarByName sE sn p.2 5 MAX_BAR_WIDTH_EMU) := by
      cases dictGet? BAR_NAME_MAP (pyLower p.1) with
      | none => exact h
      | some sn => exact slideRel_resizeBar _ _ _ _ h
    exact ih hstep

theorem slideRel_spiderStep {n : String} (r1 r2 : Bool) (hn : n ≠ PIC_NAME)
    {s sE : List Shape} (h : SlideRel n s sE) :
    SlideRel n (spiderStep r1 r2 s) (spiderStep r1 r2 sE) := by
  simp only [spiderStep]
  cases r1 with
  | false =>
    cases r2 with
    | false => simpa using h
    | true => simpa using slideRel_insertPicture "spider_2" hn (by decide) h
  | true =>
    cases r2 with
    | false => simpa using slideRel_insertPicture "spider_1" hn (by decide) h
    | true =>
      simpa using slideRel_insertPicture "spider_2" hn (by decide)
        (slideRel_insertPicture "spider_1" hn (by decide) h)

theorem slideRel_reasoningStep {n : String} (reas : List (String × ℤ)) :
    ∀ {s sE : List Shape}, SlideRel n s sE →
      SlideRel n (reasoningStep reas s) (reasoningStep reas sE) := by
  induction reas with
  | nil => intro s sE h; exact h
  | cons p ps ih =>
    intro s sE h
    exact ih (slideRel_setText _ _ (slideRel_resizeBar _ _ _ _ h))

theorem getD_set_ne_idx {α : Type} (d : List α) {k i : ℕ} (hki : k ≠ i)
    (x : α) (dflt : α) : (d.set k x).getD i dflt = d.getD i dflt := by
  simp [List.getD_eq_getElem?_getD, List.getElem?_set_ne hki]

theorem getD_set_self_of_lt {α : Type} (d : List α) {k : ℕ} (hk : k < d.length)
    (x : α) (dflt : α) : (d.set k x).getD k dflt = x := by
  simp [List.getD_eq_getElem?_getD, List.getElem?_set_self hk]

theorem getD_eq_nil_of_le {α : Type} (d : List (List α)) {i : ℕ}
    (h : d.length ≤ i) : d.getD i [] = [] := by
  simp [List.getD_eq_getElem?_getD, List.getElem?_eq_none h]

/-- One `d.set k (g (d.getD k []))` stage preserves the slide-wise
simulation between the two runs. -/
theorem slideRel_stage {n : String} {d dE : List (List Shape)}
    (hlen : d.length = dE.length) (k : ℕ) (g : List Shape → List Shape)
    (hg : ∀ {s sE : List Shape}, SlideRel n s sE → SlideRel n (g s) (g sE))
    (h : ∀ i, SlideRel n (d.getD i []) (dE.getD i [])) :
    ∀ i, SlideRel n ((d.set k (g (d.getD k []))).getD i [])
      ((dE.set k (g (dE.getD k []))).getD i []) := by
  intro i
  by_cases hik : i = k
  · subst hik
    by_cases hkd : i < d.length
    · rw [getD_set_self_of_lt d hkd, getD_set_self_of_lt dE (hlen ▸ hkd)]
      exact hg (h i)
    · have hd1 : (d.set i (g (d.getD i []))).getD i ([] : List Shape) = [] :=
        getD_eq_nil_of_le _ (by simpa using not_lt.1 hkd)
      have hd2 : (dE.set i (g (dE.getD i []))).getD i ([] : List Shape) = [] :=
        getD_eq_nil_of_le _ (by simp; omega)
      rw [hd1, hd2]
      exact slideRel_nil n
  · rw [getD_set_ne_idx d (fun he => hik he.symm),
      getD_set_ne_idx dE (fun he => hik he.symm)]
    exact h i

theorem buildPure_length (doc : List (List Shape)) (candidate role : String)
    (a : Narrative) (r1 r2 : Bool) (bars : List (String × ℚ))
    (summary reas : List (String × ℤ)) :
    (buildPure doc candidate role a r1 r2 bars summary reas).length
      = doc.length := by
  simp only [buildPure]
  by_cases hb : bars = [] <;> by_cases hr : reas = [] <;> simp [hb, hr]

/-- The two success-path outputs — from the original document and from
the document with every shape named `n` removed — stay slide-by-slide
related. -/
theorem slideRel_buildPure {n : String} (doc : List (List Shape))
    (candidate role : String) (a : Narrative) (r1 r2 : Bool)
    (bars : List (String × ℚ)) (summary reas : List (String × ℤ))
    (hn : n ≠ PIC_NAME) :
    ∀ i, SlideRel n
      ((buildPure doc candidate role a r1 r2 bars summary reas).getD i [])
      ((buildPure (eraseDoc n doc) candidate role a r1 r2 bars summary reas).getD i []) := by
  have hlen0 : doc.length = (eraseDoc n doc).length := (List.length_map _ _).symm
  have h0 : ∀ i, SlideRel n (doc.getD i []) ((eraseDoc n doc).getD i []) := by
    intro i
    by_cases hi : i < doc.length
    · have hmap : (eraseDoc n doc).getD i [] = eraseShapes n (doc.getD i []) := by
        simp [eraseDoc, List.getD_eq_getElem?_getD, List.getElem?_map,
          List.getElem?_eq_getElem hi]
      rw [hmap]
      exact slideRel_eraseShapes n _
    · rw [getD_eq_nil_of_le doc (not_lt.1 hi),
        getD_eq_nil_of_le _ (by rw [← hlen0]; exact not_lt.1 hi)]
      exact slideRel_nil n
  have h1 := slideRel_stage hlen0 0 (populateSlide1 candidate role)
    (fun h => slideRel_populateSlide1 candidate role h) h0
  have hlen1 : (doc.set 0 (populateSlide1 candidate role (doc.getD 0 []))).length
      = ((eraseDoc n doc).set 0
          (populateSlide1 candidate role ((eraseDoc n doc).getD 0 []))).length := by
    simp [hlen0]
  have h2 := slideRel_stage hlen1 2 (slide3Pure a summary)
    (fun h => slideRel_slide3Pure a summary h) h1
  have h3 := slideRel_stage (by simpa using hlen1) 3 (slide4Pure a)
    (fun h => slideRel_slide4Pure a h) h2
  intro i
  by_cases hb : bars = []
  · subst hb
    have h5 := slideRel_stage (by simpa using hlen1) 5 (spiderStep r1 r2)
      (fun h => slideRel_spiderStep r1 r2 hn h) h3
    by_cases hr : reas = []
    · subst hr
      simp only [buildPure, if_pos rfl]
      exact h5 i
    · have h6 := slideRel_stage (by simpa using hlen1) 6 (reasoningStep reas)
        (fun h => slideRel_reasoningStep reas h) h5
      simp only [buildPure, if_pos rfl, if_neg hr]
      exact h6 i
  · have h4 := slideRel_stage (by simpa using hlen1) 4 (barsStep bars)
      (fun h => slideRel_barsStep bars h) h3
    have h5 := slideRel_stage (by simpa using hlen1) 5 (spiderStep r1 r2)
      (fun h => slideRel_spiderStep r1 r2 hn h) h4
    by_cases hr : reas = []
    · subst hr
      simp only [buildPure, if_neg hb, if_pos rfl]
      exact h5 i
    · have h6 := slideRel_stage (by simpa using hlen1) 6 (reasoningStep reas)
        (fun h => slideRel_reasoningStep reas h) h5
      simp only [buildPure, if_neg hb, if_neg hr]
      exact h6 i

/-- C7 (confirmed): if one named element is absent from its slide — the
document with every shape of that name removed — `build_report_pptx`
still completes successfully, and in its saved output every slide holds,
for every other element name, exactly the same shapes (same text,
geometry and order) as the output built from the document with the
element present: a missing individual element is skipped, never fatal. -/
theorem build_skips_missing_element (doc : List (List Shape))
    (candidate role : String) (a : Narrative) (r1 r2 : Bool)
    (bars : List (String × ℚ)) (summary reas : List (String × ℤ)) (n : String)
    (hdoc : 7 ≤ doc.length)
    (hs : a.strengths.length = 3) (hd : a.development_areas.length = 3)
    (hp : a.personal_development.length = 2) (ho : a.org_support.length = 2)
    (hn : n ≠ PIC_NAME) :
    ∃ out outE : List (List Shape),
      build_report_pptx doc candidate role a r1 r2 bars summary reas = .ok out
      ∧ build_report_pptx (eraseDoc n doc) candidate role a r1 r2 bars summary reas
          = .ok outE
      ∧ outE.length = out.length
      ∧ ∀ (i : ℕ) (m : String), m ≠ n → m ≠ PIC_NAME →
          (outE.getD i []).filter (fun x => x.name == m)
            = (out.getD i []).filter (fun x => x.name == m) := by
  have hlenE : (eraseDoc n doc).length = doc.length := List.length_map _ _
  refine ⟨buildPure doc candidate role a r1 r2 bars summary reas,
    buildPure (eraseDoc n doc) candidate role a r1 r2 bars summary reas,
    build_report_ok doc candidate role a r1 r2 bars summary reas hdoc hs hd hp ho,
    build_report_ok (eraseDoc n doc) candidate role a r1 r2 bars summary reas
      (by rw [hlenE]; exact hdoc) hs hd hp ho, ?_, ?_⟩
  · rw [buildPure_length, buildPure_length, hlenE]
  · intro i m hmn hmp
    exact (slideRel_buildPure doc candidate role a r1 r2 bars summary reas hn i).1
      m hmn hmp

/-- A well-formed narrative record with the documented arities. -/
def okRec : Narrative :=
  { personal_profile := "profile",
    strengths := [("s1", "b1"), ("s2", "b2"), ("s3", "b3")],
    development_areas := [("d1", "e1"), ("d2", "e2"), ("d3", "e3")],
    future_considerations := "future",
    personal_development := [("p1", "q1"), ("p2", "q2")],
    org_support := [("o1", "r1"), ("o2", "r2")] }

/-- A 7-slide document whose first slide holds the candidate-name box. -/
def doc7c : List (List Shape) :=
  [[{ name := "candidate_name", hasTextFrame := true, text := "placeholder",
      left := 0, top := 0, width := 100, height := 20 }], [], [], [], [], [], []]

/-- C7 witness: the theorem applied with the "candidate_name" element
removed from the concrete 7-slide document. -/
theorem build_skips_missing_element_witness :
    ∃ out outE : List (List Shape),
      build_report_pptx doc7c "Jo" "VP, Acme" okRec false false [] [] [] = .ok out
      ∧ build_report_pptx (eraseDoc "candidate_name" doc7c) "Jo" "VP, Acme" okRec
          false false [] [] [] = .ok outE
      ∧ outE.length = out.length
      ∧ ∀ (i : ℕ) (m : String), m ≠ "candidate_name" → m ≠ PIC_NAME →
          (outE.getD i []).filter (fun x => x.name == m)
            = (out.getD i []).filter (fun x => x.name == m) :=
  build_skips_missing_element doc7c "Jo" "VP, Acme" okRec false false [] [] []
    "candidate_name" (by decide) rfl rfl rfl rfl (by decide)

theorem buildPure_getD2 (doc : List (List Shape)) (candidate role : String)
    (a : Narrative) (r1 r2 : Bool) (bars : List (String × ℚ))
    (summary reas : List (String × ℤ)) (hdoc : 7 ≤ doc.length) :
    (buildPure doc candidate role a r1 r2 bars summary reas).getD 2 []
      = slide3Pure a summary (doc.getD 2 []) := by
  by_cases hb : bars = [] <;> by_cases hr : reas = [] <;>
    (simp +decide [buildPure, hb, hr, getD_set_ne_idx]
     rw [List.getElem?_set_self (by simp only [List.length_set]; omega)]
     rfl)

theorem findShape?_setText_ne {m t : String} (hmt : m ≠ t) (l : List Shape)
    (txt : String) : findShape? (setTextByName l t txt) m = findShape? l m := by
  rw [setTextByName, findShape?_eq_head, findShape?_eq_head,
    filter_updateFirst_ne hmt _ (fun x => set_text_name x txt)]

theorem findShape?_reposition_ne {m t : String} (hmt : m ≠ t) (l : List Shape)
    (r trackL trackR : ℤ) :
    findShape? (repositionBallByName l t r trackL trackR) m = findShape? l m := by
  rw [repositionBallByName, findShape?_eq_head, findShape?_eq_head,
    filter_updateFirst_ne hmt _ (fun x => reposition_ball_name x r trackL trackR)]

theorem findShape?_reposition_eq {t : String} {l : List Shape} {b : Shape}
    (h : findShape? l t = some b) (r trackL trackR : ℤ) :
    findShape? (repositionBallByName l t r trackL trackR) t
      = some (reposition_ball b r trackL trackR) := by
  rw [findShape?_eq_head] at h
  rw [repositionBallByName, findShape?_eq_head,
    filter_updateFirst_eq t _ (fun x => reposition_ball_name x r trackL trackR)]
  cases hf : l.filter (fun x => x.name == t) with
  | nil => rw [hf] at h; cases h
  | cons h0 tl =>
    rw [hf] at h
    injection h with hh
    subst hh
    rfl

/-- C10 (confirmed): when a non-empty `summary_ratings` dict lacks one of
the four quadrant keys, `build_report_pptx` does not fail; the missing
rating silently defaults to 3 via `summary_ratings.get(key, 3)` and the
corresponding indicator marker is repositioned with rating 3, which
places its left edge exactly at the midpoint of the track. -/
theorem build_missing_quadrant_defaults_midpoint (doc : List (List Shape))
    (candidate role : String) (a : Narrative) (r1 r2 : Bool)
    (bars : List (String × ℚ)) (reas : List (String × ℤ))
    (summary : List (String × ℤ)) (k bn : String) (b : Shape)
    (hdoc : 7 ≤ doc.length)
    (hs : a.strengths.length = 3) (hd : a.development_areas.length = 3)
    (hp : a.personal_development.length = 2) (ho : a.org_support.length = 2)
    (hkb : (k, bn) ∈ BALL_MAP)
    (hne : summary ≠ []) (hmiss : dictGet? summary k = none)
    (hball : findShape? (doc.getD 2 []) bn = some b) :
    ∃ out : List (List Shape),
      build_report_pptx doc candidate role a r1 r2 bars summary reas = .ok out
      ∧ findShape? (out.getD 2 []) bn
          = some (reposition_ball b 3 TRACK_LEFT_EMU TRACK_RIGHT_EMU)
      ∧ (reposition_ball b 3 TRACK_LEFT_EMU TRACK_RIGHT_EMU).left
          = (TRACK_LEFT_EMU + TRACK_RIGHT_EMU) / 2 := by
  have hdef : dictGetD summary k 3 = 3 := by
    rw [dictGetD, hmiss]
    rfl
  have hmid : (reposition_ball b 3 TRACK_LEFT_EMU TRACK_RIGHT_EMU).left
      = (TRACK_LEFT_EMU + TRACK_RIGHT_EMU) / 2 := by
    have hq : ((TRACK_RIGHT_EMU - TRACK_LEFT_EMU : ℤ) : ℚ) * ((((3:ℤ) : ℚ) - 1) / 4)
        = ((2423160 : ℤ) : ℚ) := by
      norm_num [TRACK_LEFT_EMU, TRACK_RIGHT_EMU]
    simp only [reposition_ball, hq, pyTrunc_intCast]
    norm_num [TRACK_LEFT_EMU, TRACK_RIGHT_EMU]
  refine ⟨buildPure doc candidate role a r1 r2 bars summary reas,
    build_report_ok doc candidate role a r1 r2 bars summary reas hdoc hs hd hp ho,
    ?_, hmid⟩
  rw [buildPure_getD2 doc candidate role a r1 r2 bars summary reas hdoc]
  fin_cases hkb
  · simp only [slide3Pure, summaryStep, if_neg hne, strengthDevPure]
    rw [findShape?_reposition_ne (by decide), findShape?_reposition_ne (by decide),
      findShape?_reposition_ne (by decide), hdef]
    refine findShape?_reposition_eq ?_ 3 TRACK_LEFT_EMU TRACK_RIGHT_EMU
    simp +decide only [findShape?_setText_ne]
    exact hball
  · simp only [slide3Pure, summaryStep, if_neg hne, strengthDevPure]
    rw [findShape?_reposition_ne (by decide), findShape?_reposition_ne (by decide),
      hdef]
    refine findShape?_reposition_eq ?_ 3 TRACK_LEFT_EMU TRACK_RIGHT_EMU
    rw [findShape?_reposition_ne (by decide)]
    simp +decide only [findShape?_setText_ne]
    exact hball
  · simp only [slide3Pure, summaryStep, if_neg hne, strengthDevPure]
    rw [findShape?_reposition_ne (by decide), hdef]
    refine findShape?_reposition_eq ?_ 3 TRACK_LEFT_EMU TRACK_RIGHT_EMU
    rw [findShape?_reposition_ne (by decide), findShape?_reposition_ne (by decide)]
    simp +decide only [findShape?_setText_ne]
    exact hball
  · simp only [slide3Pure, summaryStep, if_neg hne, strengthDevPure]
    rw [hdef]
    refine findShape?_reposition_eq ?_ 3 TRACK_LEFT_EMU TRACK_RIGHT_EMU
    rw [findShape?_reposition_ne (by decide), findShape?_reposition_ne (by decide),
      findShape?_reposition_ne (by decide)]
    simp +decide only [findShape?_setText_ne]
    exact hball

/-- A ball shape for the "Capabilities" quadrant. -/
def ballCap : Shape :=
  { name := "ball_cap", hasTextFrame := false, text := "",
    left := 0, top := 0, width := 182880, height := 182880 }

/-- A 7-slide document whose third slide (index 2) holds the
"Capabilities" ball. -/
def docBall : List (List Shape) := [[], [], [ballCap], [], [], [], []]

/-- C10 witness: a summary dict holding only "Fit for Role" — so the
"Capabilities" key is absent — still builds, and the Capabilities ball
sits at the track midpoint. -/
theorem build_missing_quadrant_witness :
    ∃ out : List (List Shape),
      build_report_pptx docBall "Jo" "VP, Acme" okRec false false []
          [("Fit for Role", 4)] [] = .ok out
      ∧ findShape? (out.getD 2 []) "ball_cap"
          = some (reposition_ball ballCap 3 TRACK_LEFT_EMU TRACK_RIGHT_EMU)
      ∧ (reposition_ball ballCap 3 TRACK_LEFT_EMU TRACK_RIGHT_EMU).left
          = (TRACK_LEFT_EMU + TRACK_RIGHT_EMU) / 2 :=
  build_missing_quadrant_defaults_midpoint docBall "Jo" "VP, Acme" okRec
    false false [] [] [("Fit for Role", 4)] "Capabilities" "ball_cap" ballCap
    (by decide) rfl rfl rfl rfl (by decide) (by decide) (by decide) rfl
